import Mathlib

/-!
Verification of the sphere primitive of the `rrtm` ray tracer
(`src/sphere.rs`), shallowly embedded over the exact reals: every `f64`
value becomes an `ℝ`, `f64::sqrt` becomes `Real.sqrt`, `f64::acos`
becomes `Real.arccos`, and `f64::atan2` is modelled explicitly below.
Collaborator types that `sphere.rs` uses but whose sources are not part
of this development (`Interval`, `AABB`, `Ray`, `HitRecord`, `Material`)
are modelled from the specification and are marked as such.
-/

namespace RRTM

noncomputable section

open Classical

/-- 3-component real vector, the model of the renderer's `Vec3`
(and of `Point3`, which is an alias for it). -/
structure Vec3 where
  x : ℝ
  y : ℝ
  z : ℝ
deriving DecidableEq

/-- `Point3` is an alias of `Vec3`, as in the source. -/
abbrev Point3 := Vec3

instance : Add Vec3 := ⟨fun a b => ⟨a.x + b.x, a.y + b.y, a.z + b.z⟩⟩

instance : Sub Vec3 := ⟨fun a b => ⟨a.x - b.x, a.y - b.y, a.z - b.z⟩⟩

instance : Neg Vec3 := ⟨fun a => ⟨-a.x, -a.y, -a.z⟩⟩

instance : SMul ℝ Vec3 := ⟨fun t a => ⟨t * a.x, t * a.y, t * a.z⟩⟩

/-- Component-wise division of a vector by a scalar (`Vec3 / f64`). -/
def Vec3.divs (a : Vec3) (t : ℝ) : Vec3 := ⟨a.x / t, a.y / t, a.z / t⟩

/-- `Vec3::default()`: the zero vector. -/
def Vec3.default : Vec3 := ⟨0, 0, 0⟩

/-- The dot product `dot` from `vec3.rs`. -/
def dot (a b : Vec3) : ℝ := a.x * b.x + a.y * b.y + a.z * b.z

/-- `Vec3::length_squared`. -/
def Vec3.length_squared (a : Vec3) : ℝ := a.x * a.x + a.y * a.y + a.z * a.z

theorem length_squared_eq_dot (a : Vec3) : a.length_squared = dot a a := rfl

/-- Modelled from the spec: `Ray` (`ray.rs` is not among the given
sources) is an origin point, a direction vector and a scalar time;
it exposes `at(t) = origin + t * direction`. -/
structure Ray where
  origin : Point3
  direction : Vec3
  time : ℝ

/-- Modelled from the spec: `Ray::new(origin, direction)` as used by the
sphere constructors; the time of the center ray is irrelevant because
`hit` always evaluates it at the incoming ray's time. It is set to 0. -/
def Ray.new (origin : Point3) (direction : Vec3) : Ray := ⟨origin, direction, 0⟩

/-- `Ray::at(t) = origin + t * direction` (`at` is a reserved word in
Lean, hence the name `pointAt`). -/
def Ray.pointAt (r : Ray) (t : ℝ) : Point3 := r.origin + t • r.direction

/-- Modelled from the spec: `Interval` (`interval.rs` is not among the
given sources) is a closed scalar range `{min, max}`. -/
structure Interval where
  min : ℝ
  max : ℝ
deriving DecidableEq

/-- Modelled from the spec: `Interval::surrounds(x)` holds iff
`min < x < max`, strict on both ends. -/
def Interval.surrounds (i : Interval) (x : ℝ) : Prop := i.min < x ∧ x < i.max

/-- Modelled from the spec: `AABB` (`aabb.rs` is not among the given
sources) is one interval per axis. -/
structure AABB where
  x : Interval
  y : Interval
  z : Interval
deriving DecidableEq

/-- Modelled from the spec: `AABB::with_points(a, b)` builds the box
from two opposite corner points, taking the per-axis min and max so
that each interval is normalized regardless of corner order. (The
spec's padding of exactly-zero-width slabs is a collaborator concern it
notes is "not required for Sphere itself"; it is not modelled, and no
claim below depends on it.) -/
def AABB.with_points (a b : Point3) : AABB :=
  ⟨⟨min a.x b.x, max a.x b.x⟩, ⟨min a.y b.y, max a.y b.y⟩, ⟨min a.z b.z, max a.z b.z⟩⟩

/-- Modelled from the spec: `AABB::with_boxes(b1, b2)` is the union of
two boxes: per-axis min of mins and max of maxes. -/
def AABB.with_boxes (b1 b2 : AABB) : AABB :=
  ⟨⟨min b1.x.min b2.x.min, max b1.x.max b2.x.max⟩,
   ⟨min b1.y.min b2.y.min, max b1.y.max b2.y.max⟩,
   ⟨min b1.z.min b2.z.min, max b1.z.max b2.z.max⟩⟩

/-- The `Material` trait object is an opaque shared handle that this
component never inspects; it is modelled as an abstract identifier. -/
abbrev Material := Nat

/-- Modelled from the spec: the mutable `HitRecord` (`hittable.rs` is
not among the given sources) with fields
`{p, normal, t, front_face, u, v, material}`. -/
structure HitRecord where
  p : Point3
  normal : Vec3
  t : ℝ
  front_face : Bool
  u : ℝ
  v : ℝ
  material : Option Material

/-- The `Sphere` struct of `sphere.rs`: a center ray, a radius, an
optional shared material and a precomputed bounding box. -/
structure Sphere where
  center : Ray
  radius : ℝ
  material : Option Material
  bbox : AABB

/-- `Sphere::new(static_center, radius, material)` from `sphere.rs`:
static sphere, radius clamped by `f64::max(0., radius)`, bounding box
from the corners `static_center ∓ rvec` with `rvec = (radius, radius,
radius)` (note: the unclamped radius is used for `rvec`). -/
def Sphere.new (static_center : Point3) (radius : ℝ) (material : Material) : Sphere :=
  let rvec : Vec3 := ⟨radius, radius, radius⟩
  { center := Ray.new static_center Vec3.default
    radius := max 0 radius
    material := some material
    bbox := AABB.with_points (static_center - rvec) (static_center + rvec) }

/-- `Sphere::new_moving(center1, center2, radius, material)` from
`sphere.rs`: the center ray goes from `center1` with displacement
`center2 - center1`; the bounding box is the union of the boxes at
times 0 and 1; the radius is stored unclamped. -/
def Sphere.new_moving (center1 center2 : Point3) (radius : ℝ) (material : Material) : Sphere :=
  let center := Ray.new center1 (center2 - center1)
  let rvec : Vec3 := ⟨radius, radius, radius⟩
  let box1 := AABB.with_points (center.pointAt 0 - rvec) (center.pointAt 0 + rvec)
  let box2 := AABB.with_points (center.pointAt 1 - rvec) (center.pointAt 1 + rvec)
  { center := Ray.new center1 (center2 - center1)
    radius := radius
    material := some material
    bbox := AABB.with_boxes box1 box2 }

/-- Model of `f64::atan2(y, x)` over the reals. On the half-axis
`y = 0, x < 0` the value is `-π`, matching the IEEE result at the only
call site: `get_sphere` passes `-p.z()`, and for `p.z() = +0.0` the
negation produces `-0.0`, for which IEEE `atan2(-0.0, x < 0)` returns
`-π`. The range is therefore `[-π, π)`. -/
def atan2 (y x : ℝ) : ℝ :=
  if 0 < x then Real.arctan (y / x)
  else if x < 0 then
    (if 0 < y then Real.arctan (y / x) + Real.pi
     else Real.arctan (y / x) - Real.pi)
  else
    (if 0 < y then Real.pi / 2
     else if y < 0 then -(Real.pi / 2)
     else 0)

/-- `Sphere::get_sphere(p, u, v)` from `sphere.rs`, with the two `&mut`
out-parameters returned as a pair `(u, v)`:
`theta = acos(-p.y)`, `phi = atan2(-p.z, p.x) + π`,
`u = phi / 2π`, `v = theta / π`. -/
def Sphere.get_sphere (p : Point3) : ℝ × ℝ :=
  let theta := Real.arccos (-p.y)
  let phi := atan2 (-p.z) p.x + Real.pi
  (phi / (2 * Real.pi), theta / Real.pi)

/-- Modelled from the spec: `HitRecord::set_face_normal(r, outward)`
(`hittable.rs` is not among the given sources) returns the pair
`(front_face, normal)`: `front_face = (r.direction · outward < 0)`;
the stored normal is `outward` when `front_face` and `-outward`
otherwise. -/
def set_face_normal (r : Ray) (outward_normal : Vec3) : Bool × Vec3 :=
  let front_face := decide (dot r.direction outward_normal < 0)
  (front_face, if front_face then outward_normal else -outward_normal)

/-- The successful tail of `Sphere::hit`: writes `t`, `p`, `material`,
the face normal data and the UV coordinates into the record. -/
def Sphere.fillRecord (s : Sphere) (r : Ray) (current_center : Point3) (root : ℝ)
    (rec : HitRecord) : HitRecord :=
  let t := root
  let p := r.pointAt t
  let outward_normal := (p - current_center).divs s.radius
  let fn := set_face_normal r outward_normal
  let uv := Sphere.get_sphere outward_normal
  { rec with t := t, p := p, material := s.material,
             front_face := fn.1, normal := fn.2, u := uv.1, v := uv.2 }

/-- `Sphere::hit(r, ray_t, rec)` from `sphere.rs`. The Rust function
returns a `bool` and mutates `rec` through `&mut`; the model returns
the pair of the flag and the final record (the input record unchanged
on failure). The Rust control flow "try root `(h - sqrtd)/a`, on
`!surrounds` retry with `(h + sqrtd)/a`, on `!surrounds` return false"
is rendered as the equivalent two-way branch. -/
def Sphere.hit (s : Sphere) (r : Ray) (ray_t : Interval) (rec : HitRecord) :
    Bool × HitRecord :=
  let current_center := s.center.pointAt r.time
  let oc := current_center - r.origin
  let a := r.direction.length_squared
  let h := dot r.direction oc
  let c := oc.length_squared - s.radius * s.radius
  let discriminant := h * h - a * c
  if discriminant < 0 then (false, rec)
  else
    let sqrtd := Real.sqrt discriminant
    let root1 := (h - sqrtd) / a
    let root2 := (h + sqrtd) / a
    if ray_t.surrounds root1 then (true, s.fillRecord r current_center root1 rec)
    else if ray_t.surrounds root2 then (true, s.fillRecord r current_center root2 rec)
    else (false, rec)

/-- `Sphere::bounding_box()` from `sphere.rs`: returns the precomputed
box unchanged. -/
def Sphere.bounding_box (s : Sphere) : AABB := s.bbox

/-- `hit_sphere_naive(center, radius, r)` from `sphere.rs`: textbook
quadratic `b² - 4ac`; returns `-1` on a negative discriminant, else
`(-b - sqrt(disc)) / 2a`. -/
def hit_sphere_naive (center : Point3) (radius : ℝ) (r : Ray) : ℝ :=
  let oc := center - r.origin
  let a := dot r.direction r.direction
  let b := -2 * dot r.direction oc
  let c := dot oc oc - radius * radius
  let discriminant := b * b - 4 * a * c
  if discriminant < 0 then -1
  else (-b - Real.sqrt discriminant) / (2 * a)

/-- `hit_sphere(center, radius, r)` from `sphere.rs`: the half-angle
simplified quadratic; returns `-1` on a negative discriminant, else
`(h - sqrt(disc)) / a`. -/
def hit_sphere (center : Point3) (radius : ℝ) (r : Ray) : ℝ :=
  let oc := center - r.origin
  let a := r.direction.length_squared
  let h := dot r.direction oc
  let c := oc.length_squared - radius * radius
  let discriminant := h * h - a * c
  if discriminant < 0 then -1
  else (h - Real.sqrt discriminant) / a

/-- Abbreviation for the discriminant `h² - a·c` that `Sphere::hit`
computes for sphere `s` and ray `r`. -/
def Sphere.hitDisc (s : Sphere) (r : Ray) : ℝ :=
  let current_center := s.center.pointAt r.time
  let oc := current_center - r.origin
  let a := r.direction.length_squared
  let h := dot r.direction oc
  let c := oc.length_squared - s.radius * s.radius
  h * h - a * c

/-- The smaller candidate root `(h - sqrtd) / a` of `Sphere::hit`. -/
def Sphere.rootMinus (s : Sphere) (r : Ray) : ℝ :=
  let current_center := s.center.pointAt r.time
  let oc := current_center - r.origin
  let a := r.direction.length_squared
  let h := dot r.direction oc
  (h - Real.sqrt (s.hitDisc r)) / a

/-- The larger candidate root `(h + sqrtd) / a` of `Sphere::hit`. -/
def Sphere.rootPlus (s : Sphere) (r : Ray) : ℝ :=
  let current_center := s.center.pointAt r.time
  let oc := current_center - r.origin
  let a := r.direction.length_squared
  let h := dot r.direction oc
  (h + Real.sqrt (s.hitDisc r)) / a

/-- Sample sphere for concrete evaluations: the spec's §8 scenario
sphere, center `(0,0,-1)`, radius `1/2`. -/
def sphereEx : Sphere := Sphere.new ⟨0, 0, -1⟩ (1 / 2) 0

/-- Sample ray aimed at `sphereEx` (§8 scenario): origin `(0,0,0)`,
direction `(0,0,-1)`, time 0. -/
def rayTowardEx : Ray := ⟨⟨0, 0, 0⟩, ⟨0, 0, -1⟩, 0⟩

/-- Sample ray missing `sphereEx`: origin `(0,0,0)`, direction
`(0,1,0)`, time 0. -/
def rayAwayEx : Ray := ⟨⟨0, 0, 0⟩, ⟨0, 1, 0⟩, 0⟩

/-- Sample admissible interval `(0, 100)`. -/
def intervalEx : Interval := ⟨0, 100⟩

/-- Sample caller-owned hit record, zero-initialized. -/
def recEx : HitRecord := ⟨⟨0, 0, 0⟩, ⟨0, 0, 0⟩, 0, false, 0, 0, none⟩

/-! ### Component lemmas for vector arithmetic -/

theorem Vec3.add_def (a b : Vec3) : a + b = ⟨a.x + b.x, a.y + b.y, a.z + b.z⟩ := rfl

theorem Vec3.sub_def (a b : Vec3) : a - b = ⟨a.x - b.x, a.y - b.y, a.z - b.z⟩ := rfl

theorem Vec3.neg_def (a : Vec3) : -a = ⟨-a.x, -a.y, -a.z⟩ := rfl

theorem Vec3.smul_def (t : ℝ) (a : Vec3) : t • a = ⟨t * a.x, t * a.y, t * a.z⟩ := rfl

/-! ### Claim theorems -/

/-- Claim C3, counterexample: the claim fails for `new_moving`, which stores
the supplied radius unclamped: supplying radius `-1` yields a stored
radius of `-1`, not `0`. -/
theorem new_moving_radius_neg_counterexample :
    (Sphere.new_moving ⟨0, 0, 0⟩ ⟨0, 0, 0⟩ (-1) 0).radius = -1 ∧
    ¬ (0 ≤ (Sphere.new_moving ⟨0, 0, 0⟩ ⟨0, 0, 0⟩ (-1) 0).radius) := by
  constructor
  · rfl
  · intro hc
    have : (Sphere.new_moving ⟨0, 0, 0⟩ ⟨0, 0, 0⟩ (-1) 0).radius = -1 := rfl
    rw [this] at hc
    norm_num at hc

/-- Claim C3, amended: `Sphere::new` clamps the stored radius to
`max(0, radius)` (so it is non-negative, and a negative supplied radius
becomes 0), while `Sphere::new_moving` stores the supplied radius
unchanged, without clamping. -/
theorem constructor_radius_amended (c c1 c2 : Point3) (r : ℝ) (m : Material) :
    (Sphere.new c r m).radius = max 0 r ∧ (0 ≤ (Sphere.new c r m).radius) ∧
    (r < 0 → (Sphere.new c r m).radius = 0) ∧
    (Sphere.new_moving c1 c2 r m).radius = r := by
  refine ⟨rfl, le_max_left 0 r, fun hr => ?_, rfl⟩
  have : (Sphere.new c r m).radius = max 0 r := rfl
  rw [this, max_eq_left hr.le]

/-- Claim C3, witness: the amended claim applied at radius `-2`: the
static constructor clamps it to `0`, the moving one keeps `-2`. -/
theorem constructor_radius_amended_witness :
    ((-2 : ℝ) < 0) ∧
    (Sphere.new ⟨0, 0, 0⟩ (-2) 0).radius = 0 ∧
    (Sphere.new_moving ⟨0, 0, 0⟩ ⟨0, 0, 0⟩ (-2) 0).radius = -2 :=
  ⟨by norm_num,
   (constructor_radius_amended ⟨0, 0, 0⟩ ⟨0, 0, 0⟩ ⟨0, 0, 0⟩ (-2) 0).2.2.1 (by norm_num),
   (constructor_radius_amended ⟨0, 0, 0⟩ ⟨0, 0, 0⟩ ⟨0, 0, 0⟩ (-2) 0).2.2.2⟩

/-- Claim C9: a moving sphere constructed with both endpoints at the same
center `c` has the same bounding box as the static sphere at `c` with
the same radius. -/
theorem new_moving_same_center_bbox (c : Point3) (r : ℝ) (m : Material) :
    (Sphere.new_moving c c r m).bbox = (Sphere.new c r m).bbox := by
  simp only [Sphere.new_moving, Sphere.new, Ray.new, Ray.pointAt, AABB.with_points,
    AABB.with_boxes, Vec3.default, Vec3.sub_def, Vec3.add_def, Vec3.smul_def]
  norm_num

/-- Claim C10: `Sphere::new` with a negative radius `r` stores radius `0`
but computes the bounding box from the unclamped `r`: after per-axis
normalization each axis interval is `[coord - |r|, coord + |r|]`, of
half-width `|r|`, not the zero-width box of the stored zero-radius
sphere. -/
theorem new_negative_radius_bbox (c : Point3) (r : ℝ) (m : Material) (h : r < 0) :
    (Sphere.new c r m).radius = 0 ∧
    (Sphere.new c r m).bbox =
      ⟨⟨c.x - |r|, c.x + |r|⟩, ⟨c.y - |r|, c.y + |r|⟩, ⟨c.z - |r|, c.z + |r|⟩⟩ := by
  constructor
  · have : (Sphere.new c r m).radius = max 0 r := rfl
    rw [this, max_eq_left h.le]
  · simp only [Sphere.new, AABB.with_points, Vec3.sub_def, Vec3.add_def]
    have habs : |r| = -r := abs_of_neg h
    have hx1 : min (c.x - r) (c.x + r) = c.x + r := min_eq_right (by linarith)
    have hx2 : max (c.x - r) (c.x + r) = c.x - r := max_eq_left (by linarith)
    have hy1 : min (c.y - r) (c.y + r) = c.y + r := min_eq_right (by linarith)
    have hy2 : max (c.y - r) (c.y + r) = c.y - r := max_eq_left (by linarith)
    have hz1 : min (c.z - r) (c.z + r) = c.z + r := min_eq_right (by linarith)
    have hz2 : max (c.z - r) (c.z + r) = c.z - r := max_eq_left (by linarith)
    rw [hx1, hx2, hy1, hy2, hz1, hz2, habs]
    norm_num
    constructor <;> constructor <;> ring

/-- Claim C10, witness: the theorem applied to center `(1,2,3)`, radius `-1`. -/
theorem new_negative_radius_bbox_witness :
    ((-1 : ℝ) < 0) ∧
    ((Sphere.new ⟨1, 2, 3⟩ (-1) 0).radius = 0 ∧
     (Sphere.new ⟨1, 2, 3⟩ (-1) 0).bbox =
       ⟨⟨(1 : ℝ) - |(-1 : ℝ)|, (1 : ℝ) + |(-1 : ℝ)|⟩,
        ⟨(2 : ℝ) - |(-1 : ℝ)|, (2 : ℝ) + |(-1 : ℝ)|⟩,
        ⟨(3 : ℝ) - |(-1 : ℝ)|, (3 : ℝ) + |(-1 : ℝ)|⟩⟩) :=
  ⟨by norm_num, new_negative_radius_bbox ⟨1, 2, 3⟩ (-1) 0 (by norm_num)⟩

/-- Claim C4: over exact real arithmetic, the textbook solver
`hit_sphere_naive` and the half-angle solver `hit_sphere` return the
same scalar for every center, radius and ray: both return `-1` exactly
when the discriminant is negative, and otherwise both return the
smaller root, since `(-b - sqrt(b² - 4ac)) / 2a = (h - sqrt(h² - ac)) / a`
with `b = -2h`. -/
theorem hit_sphere_naive_eq_hit_sphere (center : Point3) (radius : ℝ) (r : Ray) :
    hit_sphere_naive center radius r = hit_sphere center radius r := by
  unfold hit_sphere_naive hit_sphere
  simp only [length_squared_eq_dot]
  set oc := center - r.origin with hoc
  set A := dot r.direction r.direction with hA
  set H := dot r.direction oc with hH
  set C := dot oc oc - radius * radius with hC
  have hdisc : -2 * H * (-2 * H) - 4 * A * C = 4 * (H * H - A * C) := by ring
  rw [hdisc]
  have hiff : 4 * (H * H - A * C) < 0 ↔ H * H - A * C < 0 := by
    constructor <;> intro <;> linarith
  by_cases hneg : H * H - A * C < 0
  · rw [if_pos (hiff.mpr hneg), if_pos hneg]
  · rw [if_neg (fun hx => hneg (hiff.mp hx)), if_neg hneg]
    have hsq : Real.sqrt (4 * (H * H - A * C)) = 2 * Real.sqrt (H * H - A * C) := by
      rw [Real.sqrt_mul (by norm_num : (0 : ℝ) ≤ 4),
        show (4 : ℝ) = 2 ^ 2 by norm_num, Real.sqrt_sq (by norm_num : (0 : ℝ) ≤ 2)]
    rw [hsq, show -(-2 * H) - 2 * Real.sqrt (H * H - A * C)
        = 2 * (H - Real.sqrt (H * H - A * C)) by ring]
    exact mul_div_mul_left _ _ two_ne_zero

/-! ### Helper lemmas for the intersection test -/

theorem sqrt_quarter : Real.sqrt (1 / 4 : ℝ) = 1 / 2 := by
  rw [show (1 / 4 : ℝ) = (1 / 2) ^ 2 by norm_num]
  exact Real.sqrt_sq (by norm_num)

theorem sqrt_four : Real.sqrt (4 : ℝ) = 2 := by
  rw [show (4 : ℝ) = 2 ^ 2 by norm_num]
  exact Real.sqrt_sq (by norm_num)

/-- Concrete evaluation: the away-pointing ray misses `sphereEx`
(negative discriminant), so `hit` returns the record unchanged. -/
theorem hitAway_eval : sphereEx.hit rayAwayEx intervalEx recEx = (false, recEx) := by
  norm_num [sphereEx, rayAwayEx, intervalEx, Sphere.hit, Sphere.new, Ray.new, Ray.pointAt,
    Vec3.default, Vec3.smul_def, Vec3.add_def, Vec3.sub_def, dot, Vec3.length_squared]

/-- Concrete evaluation: discriminant `1/4` for the §8 scenario. -/
theorem hitDisc_toward : sphereEx.hitDisc rayTowardEx = 1 / 4 := by
  norm_num [sphereEx, rayTowardEx, Sphere.hitDisc, Sphere.new, Ray.new, Ray.pointAt,
    Vec3.default, Vec3.smul_def, Vec3.add_def, Vec3.sub_def, dot, Vec3.length_squared]

/-- Concrete evaluation: the smaller root of the §8 scenario is `1/2`. -/
theorem rootMinus_toward : sphereEx.rootMinus rayTowardEx = 1 / 2 := by
  simp only [Sphere.rootMinus, hitDisc_toward, sqrt_quarter]
  norm_num [sphereEx, rayTowardEx, Sphere.new, Ray.new, Ray.pointAt,
    Vec3.default, Vec3.smul_def, Vec3.add_def, Vec3.sub_def, dot, Vec3.length_squared]

/-- Concrete evaluation: the §8 scenario ray hits `sphereEx`. -/
theorem hitToward_fst : (sphereEx.hit rayTowardEx intervalEx recEx).1 = true := by
  norm_num [sphereEx, rayTowardEx, intervalEx, Sphere.hit, Sphere.new, Ray.new, Ray.pointAt,
    Vec3.default, Vec3.smul_def, Vec3.add_def, Vec3.sub_def, dot, Vec3.length_squared,
    Interval.surrounds, sqrt_quarter, sqrt_four]

/-- Claim C1: when the discriminant is non-negative, `hit` selects the
smaller root `t₋ = (h - sqrtd)/a` whenever it is strictly inside the
admissible interval, otherwise `t₊ = (h + sqrtd)/a` under the same
strict containment, and fails when neither qualifies; on success the
recorded `t` is the selected root and is strictly inside the interval;
and for a non-degenerate direction `t₋ ≤ t₊`, so the selected root is
the smaller one whenever both are inside. -/
theorem hit_root_selection (s : Sphere) (r : Ray) (i : Interval) (rec : HitRecord)
    (hd : 0 ≤ s.hitDisc r) :
    (i.surrounds (s.rootMinus r) →
       (s.hit r i rec).1 = true ∧ (s.hit r i rec).2.t = s.rootMinus r) ∧
    (¬ i.surrounds (s.rootMinus r) → i.surrounds (s.rootPlus r) →
       (s.hit r i rec).1 = true ∧ (s.hit r i rec).2.t = s.rootPlus r) ∧
    (¬ i.surrounds (s.rootMinus r) → ¬ i.surrounds (s.rootPlus r) →
       (s.hit r i rec).1 = false) ∧
    ((s.hit r i rec).1 = true → i.surrounds ((s.hit r i rec).2.t)) ∧
    (0 < r.direction.length_squared → s.rootMinus r ≤ s.rootPlus r) := by
  have hord : 0 < r.direction.length_squared → s.rootMinus r ≤ s.rootPlus r := by
    intro ha
    simp only [Sphere.rootMinus, Sphere.rootPlus]
    exact (div_le_div_right ha).mpr (by linarith [Real.sqrt_nonneg (s.hitDisc r)])
  refine ⟨?_, ?_, ?_, ?_, hord⟩ <;>
  · simp only [Sphere.hitDisc] at hd
    simp only [Sphere.hit, Sphere.rootMinus, Sphere.rootPlus, Sphere.hitDisc, Sphere.fillRecord]
    split_ifs with h1 h2 h3
    · exact absurd h1 (not_lt.mpr hd)
    · simp_all
    · simp_all
    · simp_all

/-- Claim C1, witness: the §8 scenario (sphere center `(0,0,-1)`,
radius `1/2`, ray from the origin along `(0,0,-1)`, interval `(0,100)`)
has non-negative discriminant, its smaller root `t₋` is inside the
interval, and `hit` succeeds with `t = t₋`. -/
theorem hit_root_selection_witness :
    0 ≤ sphereEx.hitDisc rayTowardEx ∧
    intervalEx.surrounds (sphereEx.rootMinus rayTowardEx) ∧
    (sphereEx.hit rayTowardEx intervalEx recEx).1 = true ∧
    (sphereEx.hit rayTowardEx intervalEx recEx).2.t = sphereEx.rootMinus rayTowardEx := by
  have hd : 0 ≤ sphereEx.hitDisc rayTowardEx := by
    rw [hitDisc_toward]
    norm_num
  have hs : intervalEx.surrounds (sphereEx.rootMinus rayTowardEx) := by
    rw [rootMinus_toward]
    exact ⟨by norm_num [intervalEx], by norm_num [intervalEx]⟩
  have hmain := (hit_root_selection sphereEx rayTowardEx intervalEx recEx hd).1 hs
  exact ⟨hd, hs, hmain.1, hmain.2⟩

theorem dot_neg_right (a b : Vec3) : dot a (-b) = -(dot a b) := by
  simp only [dot, Vec3.neg_def]
  ring

/-- Specification of the modelled `set_face_normal`: the flag records
whether the ray hits the front face, the stored normal is the outward
normal or its negation accordingly, and the stored normal never points
with the ray direction. -/
theorem set_face_normal_spec (r : Ray) (w : Vec3) :
    ((set_face_normal r w).1 = true ↔ dot r.direction w < 0) ∧
    ((set_face_normal r w).1 = true → (set_face_normal r w).2 = w) ∧
    ((set_face_normal r w).1 = false → (set_face_normal r w).2 = -w) ∧
    dot r.direction (set_face_normal r w).2 ≤ 0 := by
  simp only [set_face_normal]
  by_cases h : dot r.direction w < 0
  · simp [h, le_of_lt h]
  · simp [h, dot_neg_right]
    linarith [not_lt.mp h]

/-- Claim C2: on every successful `hit`, writing `outward` for the
outward normal `(record.p - center_at_time) / radius`, the stored
normal satisfies `direction · normal ≤ 0`; `front_face` is true exactly
when `direction · outward < 0`, in which case the stored normal is
`outward` unchanged, and otherwise it is `-outward`. -/
theorem hit_face_normal (s : Sphere) (r : Ray) (i : Interval) (rec : HitRecord)
    (h : (s.hit r i rec).1 = true) :
    dot r.direction ((s.hit r i rec).2.normal) ≤ 0 ∧
    ((s.hit r i rec).2.front_face = true ↔
      dot r.direction (((s.hit r i rec).2.p - s.center.pointAt r.time).divs s.radius) < 0) ∧
    ((s.hit r i rec).2.front_face = true →
      (s.hit r i rec).2.normal = ((s.hit r i rec).2.p - s.center.pointAt r.time).divs s.radius) ∧
    ((s.hit r i rec).2.front_face = false →
      (s.hit r i rec).2.normal =
        -(((s.hit r i rec).2.p - s.center.pointAt r.time).divs s.radius)) := by
  simp only [Sphere.hit] at h ⊢
  split_ifs at h ⊢ with h1 h2 h3
  · simp only [Sphere.fillRecord]
    obtain ⟨hiff, htrue, hfalse, hle⟩ := set_face_normal_spec r
      ((r.pointAt ((dot r.direction (s.center.pointAt r.time - r.origin) -
        Real.sqrt (dot r.direction (s.center.pointAt r.time - r.origin) *
          dot r.direction (s.center.pointAt r.time - r.origin) -
          r.direction.length_squared *
            ((s.center.pointAt r.time - r.origin).length_squared - s.radius * s.radius))) /
        r.direction.length_squared) - s.center.pointAt r.time).divs s.radius)
    exact ⟨hle, hiff, htrue, hfalse⟩
  · simp only [Sphere.fillRecord]
    obtain ⟨hiff, htrue, hfalse, hle⟩ := set_face_normal_spec r
      ((r.pointAt ((dot r.direction (s.center.pointAt r.time - r.origin) +
        Real.sqrt (dot r.direction (s.center.pointAt r.time - r.origin) *
          dot r.direction (s.center.pointAt r.time - r.origin) -
          r.direction.length_squared *
            ((s.center.pointAt r.time - r.origin).length_squared - s.radius * s.radius))) /
        r.direction.length_squared) - s.center.pointAt r.time).divs s.radius)
    exact ⟨hle, hiff, htrue, hfalse⟩

/-- Claim C2, witness: the theorem applied to the §8 scenario hit. -/
theorem hit_face_normal_witness :
    (sphereEx.hit rayTowardEx intervalEx recEx).1 = true ∧
    (dot rayTowardEx.direction ((sphereEx.hit rayTowardEx intervalEx recEx).2.normal) ≤ 0 ∧
     ((sphereEx.hit rayTowardEx intervalEx recEx).2.front_face = true ↔
       dot rayTowardEx.direction
         (((sphereEx.hit rayTowardEx intervalEx recEx).2.p -
           sphereEx.center.pointAt rayTowardEx.time).divs sphereEx.radius) < 0) ∧
     ((sphereEx.hit rayTowardEx intervalEx recEx).2.front_face = true →
       (sphereEx.hit rayTowardEx intervalEx recEx).2.normal =
         ((sphereEx.hit rayTowardEx intervalEx recEx).2.p -
           sphereEx.center.pointAt rayTowardEx.time).divs sphereEx.radius) ∧
     ((sphereEx.hit rayTowardEx intervalEx recEx).2.front_face = false →
       (sphereEx.hit rayTowardEx intervalEx recEx).2.normal =
         -(((sphereEx.hit rayTowardEx intervalEx recEx).2.p -
           sphereEx.center.pointAt rayTowardEx.time).divs sphereEx.radius))) :=
  ⟨hitToward_fst, hit_face_normal sphereEx rayTowardEx intervalEx recEx hitToward_fst⟩

/-- Claim C5: `hit` returns `false` if and only if the discriminant
`h² - a·c` is negative or neither candidate root is strictly inside
the admissible interval; failure is only ever this boolean result. -/
theorem hit_false_iff (s : Sphere) (r : Ray) (i : Interval) (rec : HitRecord) :
    (s.hit r i rec).1 = false ↔
      (s.hitDisc r < 0 ∨
        (¬ i.surrounds (s.rootMinus r) ∧ ¬ i.surrounds (s.rootPlus r))) := by
  simp only [Sphere.hit, Sphere.hitDisc, Sphere.rootMinus, Sphere.rootPlus]
  split_ifs with h1 h2 h3 <;> simp_all

/-- Claim C6: whenever `hit` returns failure, the caller-supplied hit
record is returned completely unchanged: no field is written. -/
theorem hit_failure_keeps_record (s : Sphere) (r : Ray) (i : Interval) (rec : HitRecord)
    (h : (s.hit r i rec).1 = false) : (s.hit r i rec).2 = rec := by
  simp only [Sphere.hit] at h ⊢
  split_ifs at h ⊢ <;> simp_all

/-- Claim C6, witness: the theorem applied to the missing ray of
`hitAway_eval`; the record comes back exactly as supplied. -/
theorem hit_failure_keeps_record_witness :
    (sphereEx.hit rayAwayEx intervalEx recEx).1 = false ∧
    (sphereEx.hit rayAwayEx intervalEx recEx).2 = recEx := by
  have h : (sphereEx.hit rayAwayEx intervalEx recEx).1 = false := by
    rw [hitAway_eval]
  exact ⟨h, hit_failure_keeps_record sphereEx rayAwayEx intervalEx recEx h⟩

/-! ### Helper lemmas for the UV parameterization -/

theorem two_pi_ne_zero : (2 : ℝ) * Real.pi ≠ 0 := mul_ne_zero two_ne_zero Real.pi_ne_zero

theorem pi_div_two_pi : Real.pi / (2 * Real.pi) = 1 / 2 := by
  rw [div_eq_iff two_pi_ne_zero]
  ring

theorem half_pi_div_pi : Real.pi / 2 / Real.pi = 1 / 2 := by
  rw [div_div, div_eq_iff two_pi_ne_zero]
  ring

theorem neg_half_pi_add_pi_div : (-(Real.pi / 2) + Real.pi) / (2 * Real.pi) = 1 / 4 := by
  rw [div_eq_iff two_pi_ne_zero]
  ring

theorem half_pi_add_pi_div : (Real.pi / 2 + Real.pi) / (2 * Real.pi) = 3 / 4 := by
  rw [div_eq_iff two_pi_ne_zero]
  ring

/-- Claim C7: `get_sphere` sends the six axis-aligned unit normals to
the six listed (u,v) pairs: `(1,0,0) → (0.5,0.5)`,
`(-1,0,0) → (0,0.5)`, `(0,1,0) → (0.5,1)`, `(0,-1,0) → (0.5,0)`,
`(0,0,1) → (0.25,0.5)`, `(0,0,-1) → (0.75,0.5)`. -/
theorem get_sphere_axis_values :
    Sphere.get_sphere ⟨1, 0, 0⟩ = (1 / 2, 1 / 2) ∧
    Sphere.get_sphere ⟨-1, 0, 0⟩ = (0, 1 / 2) ∧
    Sphere.get_sphere ⟨0, 1, 0⟩ = (1 / 2, 1) ∧
    Sphere.get_sphere ⟨0, -1, 0⟩ = (1 / 2, 0) ∧
    Sphere.get_sphere ⟨0, 0, 1⟩ = (1 / 4, 1 / 2) ∧
    Sphere.get_sphere ⟨0, 0, -1⟩ = (3 / 4, 1 / 2) := by
  refine ⟨?_, ?_, ?_, ?_, ?_, ?_⟩
  · show ((atan2 (-(0 : ℝ)) 1 + Real.pi) / (2 * Real.pi),
        Real.arccos (-(0 : ℝ)) / Real.pi) = (1 / 2, 1 / 2)
    have h1 : atan2 (-(0 : ℝ)) 1 = 0 := by norm_num [atan2]
    rw [h1, zero_add, Prod.mk.injEq, neg_zero, Real.arccos_zero]
    exact ⟨pi_div_two_pi, half_pi_div_pi⟩
  · show ((atan2 (-(0 : ℝ)) (-1) + Real.pi) / (2 * Real.pi),
        Real.arccos (-(0 : ℝ)) / Real.pi) = (0, 1 / 2)
    have h1 : atan2 (-(0 : ℝ)) (-1) = -Real.pi := by norm_num [atan2]
    rw [h1, Prod.mk.injEq, neg_zero, Real.arccos_zero]
    refine ⟨?_, half_pi_div_pi⟩
    rw [show -Real.pi + Real.pi = 0 by ring, zero_div]
  · show ((atan2 (-(0 : ℝ)) 0 + Real.pi) / (2 * Real.pi),
        Real.arccos (-(1 : ℝ)) / Real.pi) = (1 / 2, 1)
    have h1 : atan2 (-(0 : ℝ)) 0 = 0 := by norm_num [atan2]
    rw [h1, zero_add, Prod.mk.injEq, Real.arccos_neg_one]
    exact ⟨pi_div_two_pi, div_self Real.pi_ne_zero⟩
  · show ((atan2 (-(0 : ℝ)) 0 + Real.pi) / (2 * Real.pi),
        Real.arccos (-(-1 : ℝ)) / Real.pi) = (1 / 2, 0)
    have h1 : atan2 (-(0 : ℝ)) 0 = 0 := by norm_num [atan2]
    rw [h1, zero_add, Prod.mk.injEq, show (-(-1 : ℝ)) = 1 by norm_num, Real.arccos_one]
    exact ⟨pi_div_two_pi, zero_div _⟩
  · show ((atan2 (-(1 : ℝ)) 0 + Real.pi) / (2 * Real.pi),
        Real.arccos (-(0 : ℝ)) / Real.pi) = (1 / 4, 1 / 2)
    have h1 : atan2 (-(1 : ℝ)) 0 = -(Real.pi / 2) := by norm_num [atan2]
    rw [h1, Prod.mk.injEq, neg_zero, Real.arccos_zero]
    exact ⟨neg_half_pi_add_pi_div, half_pi_div_pi⟩
  · show ((atan2 (-(-1 : ℝ)) 0 + Real.pi) / (2 * Real.pi),
        Real.arccos (-(0 : ℝ)) / Real.pi) = (3 / 4, 1 / 2)
    have h1 : atan2 (-(-1 : ℝ)) 0 = Real.pi / 2 := by norm_num [atan2]
    rw [h1, Prod.mk.injEq, neg_zero, Real.arccos_zero]
    exact ⟨half_pi_add_pi_div, half_pi_div_pi⟩

/-- The modelled `atan2` takes values in `[-π, π)`. -/
theorem atan2_mem_range (y x : ℝ) : -Real.pi ≤ atan2 y x ∧ atan2 y x < Real.pi := by
  have hpi := Real.pi_pos
  unfold atan2
  split_ifs with hx hx2 hy hy2 hy3
  · exact ⟨by linarith [Real.neg_pi_div_two_lt_arctan (y / x)],
      by linarith [Real.arctan_lt_pi_div_two (y / x)]⟩
  · have hyx : y / x < 0 := div_neg_of_pos_of_neg hy hx2
    have h1 : Real.arctan (y / x) < 0 := by
      have h2 := Real.arctan_strictMono hyx
      rwa [Real.arctan_zero] at h2
    exact ⟨by linarith [Real.neg_pi_div_two_lt_arctan (y / x)], by linarith⟩
  · have hyx : 0 ≤ y / x := div_nonneg_iff.mpr (Or.inr ⟨not_lt.mp hy, hx2.le⟩)
    have h1 : 0 ≤ Real.arctan (y / x) := by
      have h2 := Real.arctan_strictMono.monotone hyx
      rwa [Real.arctan_zero] at h2
    exact ⟨by linarith, by linarith [Real.arctan_lt_pi_div_two (y / x)]⟩
  · exact ⟨by linarith, by linarith⟩
  · exact ⟨by linarith, by linarith⟩
  · exact ⟨by linarith, by linarith⟩

/-- Claim C8: for every point `p` on the unit sphere, `get_sphere`
returns `u = phi / 2π` and `v = theta / π` with
`theta = acos(-p.y) ∈ [0, π]` and `phi = atan2(-p.z, p.x) + π ∈ [0, 2π)`,
and both outputs lie in `[0, 1]`. -/
theorem get_sphere_uv_range (p : Point3) (hp : p.x ^ 2 + p.y ^ 2 + p.z ^ 2 = 1) :
    (Sphere.get_sphere p).1 = (atan2 (-p.z) p.x + Real.pi) / (2 * Real.pi) ∧
    (Sphere.get_sphere p).2 = Real.arccos (-p.y) / Real.pi ∧
    0 ≤ Real.arccos (-p.y) ∧ Real.arccos (-p.y) ≤ Real.pi ∧
    0 ≤ atan2 (-p.z) p.x + Real.pi ∧ atan2 (-p.z) p.x + Real.pi < 2 * Real.pi ∧
    0 ≤ (Sphere.get_sphere p).1 ∧ (Sphere.get_sphere p).1 ≤ 1 ∧
    0 ≤ (Sphere.get_sphere p).2 ∧ (Sphere.get_sphere p).2 ≤ 1 := by
  obtain ⟨hlo, hhi⟩ := atan2_mem_range (-p.z) p.x
  have hpi := Real.pi_pos
  have hu : (Sphere.get_sphere p).1 = (atan2 (-p.z) p.x + Real.pi) / (2 * Real.pi) := rfl
  have hv : (Sphere.get_sphere p).2 = Real.arccos (-p.y) / Real.pi := rfl
  refine ⟨hu, hv, Real.arccos_nonneg _, Real.arccos_le_pi _, by linarith, by linarith,
    ?_, ?_, ?_, ?_⟩
  · rw [hu]
    exact div_nonneg (by linarith) (by linarith)
  · rw [hu, div_le_one (by linarith)]
    linarith
  · rw [hv]
    exact div_nonneg (Real.arccos_nonneg _) hpi.le
  · rw [hv, div_le_one hpi]
    exact Real.arccos_le_pi _

/-- Claim C8, witness: the theorem applied to the unit-sphere point
`(1, 0, 0)`. -/
theorem get_sphere_uv_range_witness :
    ((1 : ℝ) ^ 2 + (0 : ℝ) ^ 2 + (0 : ℝ) ^ 2 = 1) ∧
    ((Sphere.get_sphere ⟨1, 0, 0⟩).1 = (atan2 (-(0 : ℝ)) 1 + Real.pi) / (2 * Real.pi) ∧
     (Sphere.get_sphere ⟨1, 0, 0⟩).2 = Real.arccos (-(0 : ℝ)) / Real.pi ∧
     0 ≤ Real.arccos (-(0 : ℝ)) ∧ Real.arccos (-(0 : ℝ)) ≤ Real.pi ∧
     0 ≤ atan2 (-(0 : ℝ)) 1 + Real.pi ∧ atan2 (-(0 : ℝ)) 1 + Real.pi < 2 * Real.pi ∧
     0 ≤ (Sphere.get_sphere ⟨1, 0, 0⟩).1 ∧ (Sphere.get_sphere ⟨1, 0, 0⟩).1 ≤ 1 ∧
     0 ≤ (Sphere.get_sphere ⟨1, 0, 0⟩).2 ∧ (Sphere.get_sphere ⟨1, 0, 0⟩).2 ≤ 1) :=
  ⟨by norm_num, get_sphere_uv_range ⟨1, 0, 0⟩ (by norm_num)⟩

end

end RRTM
